import Mathlib

/-!
Verification of the HDF5 raw-data-file index layer (HDF5RawDataFile.cpp) of the
dunecore repository, as a shallow embedding.  Record identifiers, source
identifiers, the per-record caches and the query surface are translated from
the source; the external collaborators that are not part of the sources here
(HighFive container access, HDF5SourceIDHandler, HDF5FileLayout, the JSON
parser) are modelled from the specification, each marked in its doc comment.
-/

namespace dunedaq
namespace hdf5libs

/-- Record identifier: (record_number as unsigned 64-bit, sequence_number as
unsigned 32-bit), both embedded as `Nat` with explicit wrap-around where a
conversion happens. -/
abbrev record_id_t := Nat × Nat

/-- Geometric identifier: opaque unsigned 64-bit value, embedded as `Nat`. -/
abbrev geo_id_t := Nat

/-- daqdataformats::SourceID: a (subsystem, id) pair; orderable, used as a
set/map key.  The subsystem enumeration is embedded as `Nat`. -/
structure SourceID where
  subsystem : Nat
  id : Nat
deriving DecidableEq, Repr

/-- Lexicographic key of a SourceID, mirroring SourceID::operator< which
compares subsystem first and then id. -/
def SourceID.key (s : SourceID) : Lex (Nat × Nat) := toLex (s.subsystem, s.id)

instance : LinearOrder SourceID :=
  LinearOrder.lift' SourceID.key (fun a b h => by
    cases a; cases b
    have h2 := congrArg ofLex h
    simp only [SourceID.key, ofLex_toLex, Prod.mk.injEq] at h2
    simp [h2.1, h2.2])

/-- The default-constructed SourceID (subsystem kUNDEFINED = 0, id =
s_invalid_id = 0xFFFFFFFF). -/
instance : Inhabited SourceID := ⟨⟨0, 4294967295⟩⟩

/-- First value bound to key `k` in an association list (std::map lookup). -/
def lookupA {α β : Type} [DecidableEq α] (k : α) : List (α × β) → Option β
  | [] => none
  | (k', v) :: t => if k = k' then some v else lookupA k t

/-- std::map::count projected to a Bool: does the map hold key `k`. -/
def containsA {α β : Type} [DecidableEq α] (k : α) (l : List (α × β)) : Bool :=
  (lookupA k l).isSome

/-- std::map lookup with a default, mirroring operator[] on a map that is only
read (the default-constructed entry operator[] would insert is never observed
by any query modelled here). -/
def lookupD {α β : Type} [DecidableEq α] (k : α) (l : List (α × β)) (d : β) : β :=
  (lookupA k l).getD d

/-- std::map insert-or-assign of key `k` (operator[] followed by assignment). -/
def insertA {α β : Type} [DecidableEq α] (k : α) (v : β) : List (α × β) → List (α × β)
  | [] => [(k, v)]
  | (k', v') :: t => if k = k' then (k, v) :: t else (k', v') :: insertA k v t

/-- Strict lexicographic order on record identifiers, mirroring
std::pair<uint64_t, uint32_t>::operator<. -/
def ridLt (a b : record_id_t) : Prop := a.1 < b.1 ∨ (a.1 = b.1 ∧ a.2 < b.2)

instance (a b : record_id_t) : Decidable (ridLt a b) := by
  unfold ridLt; infer_instance

/-- std::set<record_id_t>::insert: ordered, duplicate-free insertion. -/
def rid_set_insert (a : record_id_t) : List record_id_t → List record_id_t
  | [] => [a]
  | b :: t => if ridLt a b then a :: b :: t
              else if a = b then b :: t
              else b :: rid_set_insert a t

/-- Does `needle` occur at the head of `l` (character-list form). -/
def startsWithCL : List Char → List Char → Bool
  | [], _ => true
  | _ :: _, [] => false
  | a :: as, b :: bs => a = b && startsWithCL as bs

/-- Position of the first occurrence of `needle` in the haystack, starting the
count at `i` (worker for `findSub`). -/
def findSubAux (needle : List Char) : List Char → Nat → Option Nat
  | [], i => if needle.isEmpty then some i else none
  | h :: t, i => if startsWithCL needle (h :: t) then some i else findSubAux needle t (i + 1)

/-- std::string::find(needle): index of the first occurrence, `none` for npos. -/
def findSub (hay needle : String) : Option Nat :=
  findSubAux needle.data hay.data 0

/-- Characters accepted by isspace in the default locale (used by std::stoi
before the optional sign). -/
def isSpaceCL (c : Char) : Bool :=
  c = ' ' || c = '\t' || c = '\n' || c = '\x0b' || c = '\x0c' || c = '\r'

/-- Decimal digit test. -/
def isDigitCL (c : Char) : Bool := '0' ≤ c && c ≤ '9'

/-- Numeric value of a digit run. -/
def digitsVal (l : List Char) : Nat :=
  l.foldl (fun acc c => acc * 10 + (c.toNat - 48)) 0

/-- Errors thrown as cet::exception by the code under verification, tagged by
which throw site produced them, carrying the data streamed into the message. -/
inductive CetErr where
  | recordNotFound (rid : record_id_t)
  | invalidGroup (name : String)
  | invalidDataset (path : String)
  | incompatibleVersion (v : Nat)
  | badRecordType (found expected : String)
  | wrongRecordTypeRequested (requested expected : String)
  | missingAttribute (name : String)
  | stoiInvalidArgument
  | stoiOutOfRange
deriving DecidableEq, Repr

/-- Any exception escaping a modelled operation: either a cet::exception (the
kind the code itself throws and the kind its catch clauses handle) or an
exception of the external JSON library, which no catch clause in the sources
handles. -/
inductive Err where
  | cet (e : CetErr)
  | jsonException
deriving DecidableEq, Repr

/-- std::stoi on a character list: skip leading whitespace, optional sign,
longest leading digit run; no digit is invalid_argument; a value outside the
signed 32-bit range is out_of_range; parsing stops at the first non-digit. -/
def stoiCL (cs : List Char) : Except Err Int :=
  let cs1 := cs.dropWhile isSpaceCL
  let sign : Int := match cs1 with
    | '-' :: _ => -1
    | _ => 1
  let cs2 := match cs1 with
    | '-' :: t => t
    | '+' :: t => t
    | _ => cs1
  let digits := cs2.takeWhile isDigitCL
  if digits.isEmpty then .error (.cet .stoiInvalidArgument)
  else
    let v : Int := sign * (digitsVal digits : Nat)
    if v < -2147483648 ∨ 2147483647 < v then .error (.cet .stoiOutOfRange)
    else .ok v

/-- Implicit conversion of the int returned by std::stoi to the unsigned
64-bit record number (wrap-around modulo 2^64). -/
def intToU64 (i : Int) : Nat := (i % (18446744073709551616 : Int)).toNat

/-- Implicit conversion of the int returned by std::stoi to the unsigned
32-bit sequence number (wrap-around modulo 2^32). -/
def intToU32 (i : Int) : Nat := (i % (4294967296 : Int)).toNat

/-- One object of the hierarchical container: a dataset leaf carrying raw
bytes, or a group with named children listed in enumeration order.  Modelled
from the spec: the Container Accessor (HighFive) is external; this is its
group/dataset tree as consumed through list_children / child_kind /
get_group / get_dataset / read_dataset_bytes. -/
inductive HNode where
  | dataset (bytes : List Nat)
  | group (children : List (String × HNode))

/-- Record-scoped metadata that HDF5SourceIDHandler would extract from one
record group.  Modelled from the spec: the Source-Identifier Resolver (4.2) is
not part of the sources here; each field is the (possibly empty) map one of
its fetch operations yields for this group, and `rh_sid` is the source
identifier it reports for the record header. -/
structure RecordGroupInfo where
  source_id_path_map : List (SourceID × String)
  rh_sid : SourceID
  geo_id_additions : List (SourceID × List geo_id_t)
  fragment_type_source_id_map : List (Nat × Finset SourceID)
  subdetector_source_id_map : List (Nat × Finset SourceID)
deriving DecidableEq

/-- A record group with no resolver metadata attached: every fetch yields an
empty map and the record-header source identifier is default-constructed. -/
instance : Inhabited RecordGroupInfo := ⟨⟨[], default, [], [], []⟩⟩

/-- The immutable content of an opened file as seen after construction: the
root group's children, the layout data (record-name tag, record-header dataset
name, filelayout version) and, per record-group name, the resolver metadata of
that group. -/
structure FileEnv where
  root_children : List (String × HNode)
  record_name_pref : String
  record_header_dataset_name : String
  version : Nat
  record_groups_meta : List (String × RecordGroupInfo)

/-- The mutable members of HDF5RawDataFile touched by the operations under
verification: the file-level source-id-to-geo-id map, the memoized record-id
set, and the eight per-record caches. -/
structure FileState where
  file_level_source_id_geo_id_map : List (SourceID × List geo_id_t)
  all_record_ids_in_file : List record_id_t
  source_id_cache : List (record_id_t × Finset SourceID)
  record_header_source_id_cache : List (record_id_t × SourceID)
  fragment_source_id_cache : List (record_id_t × Finset SourceID)
  source_id_geo_id_cache : List (record_id_t × List (SourceID × List geo_id_t))
  source_id_path_cache : List (record_id_t × List (SourceID × String))
  subsystem_source_id_cache : List (record_id_t × List (Nat × Finset SourceID))
  fragment_type_source_id_cache : List (record_id_t × List (Nat × Finset SourceID))
  subdetector_source_id_cache : List (record_id_t × List (Nat × Finset SourceID))
deriving DecidableEq

/-- A freshly constructed state whose file-level geo-id map was resolved to
`geo` and whose lazy members are all still empty. -/
def mkState (geo : List (SourceID × List geo_id_t)) : FileState :=
  ⟨geo, [], [], [], [], [], [], [], [], []⟩

/-- The state right after construction of an index over a file with no
file-level geo-id metadata. -/
def initState : FileState := mkState []

/-- Split a character list at every slash, keeping empty pieces. -/
def splitOnSlash : List Char → List Char → List String
  | [], cur => [String.mk cur.reverse]
  | c :: rest, cur =>
    if c = '/' then String.mk cur.reverse :: splitOnSlash rest []
    else splitOnSlash rest (c :: cur)

/-- Split an HDF5 path into its non-empty slash-separated components. -/
def splitSlash (s : String) : List String :=
  (splitOnSlash s.data []).filter (fun c => c ≠ "")

/-- Resolve a component path inside the container tree (HighFive getGroup /
getDataSet path resolution relative to the file root). -/
def navNode : HNode → List String → Option HNode
  | n, [] => some n
  | HNode.group cs, c :: rest =>
    match lookupA c cs with
    | some child => navNode child rest
    | none => none
  | HNode.dataset _, _ :: _ => none

/-- The file root as a container node. -/
def rootNode (env : FileEnv) : HNode := HNode.group env.root_children

/-- HDF5RawDataFile::explore_subgroup's loop over the children of one group:
a dataset child contributes `relative_path + "/" + name`; a group child is
recursed into with the extended relative path. -/
def exploreList (relative_path : String) : List (String × HNode) → List String
  | [] => []
  | (child_name, HNode.dataset _) :: rest =>
    (relative_path ++ "/" ++ child_name) :: exploreList relative_path rest
  | (child_name, HNode.group cs) :: rest =>
    exploreList (relative_path ++ "/" ++ child_name) cs ++ exploreList relative_path rest

/-- explore_subgroup pops one trailing slash from the relative path before
listing children. -/
def stripTrailingSlash (s : String) : String :=
  if s.data ≠ [] ∧ s.data.getLast? = some '/' then String.mk s.data.dropLast else s

/-- HDF5RawDataFile::get_dataset_paths: resolve the top-level group (the file
root path "/" when the argument is empty), fail on an invalid group, then
collect every descendant dataset path. -/
def get_dataset_paths (env : FileEnv) (top_level_group_name : String) : Except Err (List String) :=
  let top := if top_level_group_name = "" then "/" else top_level_group_name
  match navNode (rootNode env) (splitSlash top) with
  | some (HNode.group cs) => .ok (exploreList (stripTrailingSlash top) cs)
  | _ => .error (.cet (.invalidGroup top))

/-- Modelled from the spec: HDF5FileLayout::get_record_number_string is not in
the sources here; per 4.1 it maps (record_number, sequence_number) to the
group-path string of that record, built from the record-name tag. -/
def get_record_number_string (record_name_pref : String) (rec_num seq_num : Nat) : String :=
  record_name_pref ++ toString rec_num ++ "." ++ toString seq_num

/-- The group name of a record as resolved through the layout descriptor. -/
def recordGroupNameOf (env : FileEnv) (rid : record_id_t) : String :=
  get_record_number_string env.record_name_pref rid.1 rid.2

/-- The resolver metadata of the record's group; a group without attached
metadata yields the default (all-empty) metadata, since per 4.2 every resolver
fetch leaves its output map valid (possibly empty) rather than failing. -/
def recordGroupMetaOfRid (env : FileEnv) (rid : record_id_t) : RecordGroupInfo :=
  (lookupA (recordGroupNameOf env rid) env.record_groups_meta).getD default

/-- Modelled from the spec: HDF5SourceIDHandler::fetch_record_level_geo_id_info
merges the record-scoped geo-id additions into the caller-supplied copy of the
file-level map (4.2). -/
def merge_geo_map (base additions : List (SourceID × List geo_id_t)) :
    List (SourceID × List geo_id_t) :=
  additions.foldl (fun m e => insertA e.1 e.2 m) base

/-- Modelled from the spec:
HDF5SourceIDHandler::add_subsystem_source_id_to_map files `sid` under its
subsystem tag, starting a fresh set for a first-seen subsystem. -/
def add_subsystem_source_id_to_map (m : List (Nat × Finset SourceID)) (subsys : Nat)
    (sid : SourceID) : List (Nat × Finset SourceID) :=
  match lookupA subsys m with
  | some s => insertA subsys (insert sid s) m
  | none => insertA subsys {sid} m

/-- The full source-id set accumulated by the loop of
add_record_level_info_to_caches_if_needed over the source-id-to-path map. -/
def full_source_id_set (spm : List (SourceID × String)) : Finset SourceID :=
  spm.foldl (fun acc e => insert e.1 acc) ∅

/-- The fragment-only source-id set accumulated by the same loop: every key of
the path map other than the record-header source identifier. -/
def fragment_source_id_set (rh : SourceID) (spm : List (SourceID × String)) : Finset SourceID :=
  spm.foldl (fun acc e => if e.1 ≠ rh then insert e.1 acc else acc) ∅

/-- The subsystem-to-source-id map accumulated by the same loop. -/
def subsystem_source_id_map_of (spm : List (SourceID × String)) : List (Nat × Finset SourceID) :=
  spm.foldl (fun m e => add_subsystem_source_id_to_map m e.1.subsystem e.1) []

/-- The cache-writing pass of
HDF5RawDataFile::add_record_level_info_to_caches_if_needed: build the local
geo-id map from a copy of the file-level map plus the record-level additions,
fetch the record-scoped maps, derive the full and fragment-only source-id
sets and the subsystem map in one pass over the source-id-to-path map, then
write all eight per-record caches for the record id. -/
def populateCaches (env : FileEnv) (rid : record_id_t) (s : FileState) : FileState :=
  let rg := recordGroupMetaOfRid env rid
  let local_source_id_geo_id_map :=
    merge_geo_map s.file_level_source_id_geo_id_map rg.geo_id_additions
  let source_id_path_map := rg.source_id_path_map
  let rh_sid := rg.rh_sid
  { s with
    source_id_cache :=
      insertA rid (full_source_id_set source_id_path_map) s.source_id_cache,
    record_header_source_id_cache :=
      insertA rid rh_sid s.record_header_source_id_cache,
    fragment_source_id_cache :=
      insertA rid (fragment_source_id_set rh_sid source_id_path_map)
        s.fragment_source_id_cache,
    source_id_geo_id_cache :=
      insertA rid local_source_id_geo_id_map s.source_id_geo_id_cache,
    source_id_path_cache :=
      insertA rid source_id_path_map s.source_id_path_cache,
    subsystem_source_id_cache :=
      insertA rid (subsystem_source_id_map_of source_id_path_map)
        s.subsystem_source_id_cache,
    fragment_type_source_id_cache :=
      insertA rid rg.fragment_type_source_id_map s.fragment_type_source_id_cache,
    subdetector_source_id_cache :=
      insertA rid rg.subdetector_source_id_map s.subdetector_source_id_cache }

/-- The sentinel check and group-validity check of
HDF5RawDataFile::add_record_level_info_to_caches_if_needed, with the
cache-writing pass factored out as `populateCaches`. -/
def add_record_level_info_to_caches_if_needed (env : FileEnv) (rid : record_id_t)
    (s : FileState) : Except Err Unit × FileState :=
  if containsA rid s.source_id_path_cache then (.ok (), s)
  else
    match navNode (rootNode env) (splitSlash (recordGroupNameOf env rid)) with
    | some (HNode.group _) => (.ok (), populateCaches env rid s)
    | _ => (.error (.cet (.invalidGroup (recordGroupNameOf env rid))), s)

/-- The loop body of get_all_record_ids over the root's child names: find the
record-name tag as a substring, skip the name when absent, otherwise parse the
remainder as `<record_number>` or `<record_number>.<sequence_number>` with
std::stoi and insert into the ordered set; a stoi exception aborts the scan,
leaving the identifiers inserted so far. -/
def scan_names (record_name_pref : String) :
    List String → List record_id_t → Except Err Unit × List record_id_t
  | [], acc => (.ok (), acc)
  | name :: rest, acc =>
    match findSub name record_name_pref with
    | none => scan_names record_name_pref rest acc
    | some loc =>
      let rec_num_chars := name.data.drop (loc + record_name_pref.length)
      match findSubAux ['.'] rec_num_chars 0 with
      | none =>
        match stoiCL rec_num_chars with
        | .error e => (.error e, acc)
        | .ok n =>
          scan_names record_name_pref rest (rid_set_insert (intToU64 n, 0) acc)
      | some dloc =>
        let seq_num_chars := rec_num_chars.drop (dloc + 1)
        let rec_only_chars := rec_num_chars.take dloc
        match stoiCL rec_only_chars with
        | .error e => (.error e, acc)
        | .ok n =>
          match stoiCL seq_num_chars with
          | .error e => (.error e, acc)
          | .ok sq =>
            scan_names record_name_pref rest
              (rid_set_insert (intToU64 n, intToU32 sq) acc)

/-- HDF5RawDataFile::get_all_record_ids: memoized; on first call scan the
root's child group names and store the resulting ordered duplicate-free set in
the member (also storing whatever was inserted before a stoi exception). -/
def get_all_record_ids (env : FileEnv) (s : FileState) :
    Except Err (List record_id_t) × FileState :=
  if s.all_record_ids_in_file ≠ [] then (.ok s.all_record_ids_in_file, s)
  else
    match scan_names env.record_name_pref (env.root_children.map Prod.fst) [] with
    | (.ok _, ids) => (.ok ids, { s with all_record_ids_in_file := ids })
    | (.error e, ids) => (.error e, { s with all_record_ids_in_file := ids })

/-- HDF5RawDataFile::get_source_ids(rid): record-id check, cache population,
then read of the full source-id set cache. -/
def get_source_ids (env : FileEnv) (rid : record_id_t) (s : FileState) :
    Except Err (Finset SourceID) × FileState :=
  match get_all_record_ids env s with
  | (.error e, s1) => (.error e, s1)
  | (.ok ids, s1) =>
    if rid ∈ ids then
      match add_record_level_info_to_caches_if_needed env rid s1 with
      | (.error e, s2) => (.error e, s2)
      | (.ok _, s2) => (.ok (lookupD rid s2.source_id_cache ∅), s2)
    else (.error (.cet (.recordNotFound rid)), s1)

/-- HDF5RawDataFile::get_record_header_source_id(rid). -/
def get_record_header_source_id (env : FileEnv) (rid : record_id_t) (s : FileState) :
    Except Err SourceID × FileState :=
  match get_all_record_ids env s with
  | (.error e, s1) => (.error e, s1)
  | (.ok ids, s1) =>
    if rid ∈ ids then
      match add_record_level_info_to_caches_if_needed env rid s1 with
      | (.error e, s2) => (.error e, s2)
      | (.ok _, s2) => (.ok (lookupD rid s2.record_header_source_id_cache default), s2)
    else (.error (.cet (.recordNotFound rid)), s1)

/-- HDF5RawDataFile::get_fragment_source_ids(rid). -/
def get_fragment_source_ids (env : FileEnv) (rid : record_id_t) (s : FileState) :
    Except Err (Finset SourceID) × FileState :=
  match get_all_record_ids env s with
  | (.error e, s1) => (.error e, s1)
  | (.ok ids, s1) =>
    if rid ∈ ids then
      match add_record_level_info_to_caches_if_needed env rid s1 with
      | (.error e, s2) => (.error e, s2)
      | (.ok _, s2) => (.ok (lookupD rid s2.fragment_source_id_cache ∅), s2)
    else (.error (.cet (.recordNotFound rid)), s1)

/-- HDF5RawDataFile::get_fragment_dataset_paths(rid): record-id check; for
filelayout version at most 2, the dataset paths under the record group except
those matching the record-header dataset name; for newer versions, the cached
path of every fragment source id of the record (std::set iteration is in
ascending order). -/
def get_fragment_dataset_paths (env : FileEnv) (rid : record_id_t) (s : FileState) :
    Except Err (List String) × FileState :=
  match get_all_record_ids env s with
  | (.error e, s1) => (.error e, s1)
  | (.ok ids, s1) =>
    if rid ∈ ids then
      if env.version ≤ 2 then
        let record_group_path := "/" ++ recordGroupNameOf env rid
        match get_dataset_paths env record_group_path with
        | .error e => (.error e, s1)
        | .ok paths =>
          (.ok (paths.filter
            (fun p => findSub p env.record_header_dataset_name = none)), s1)
      else
        match get_fragment_source_ids env rid s1 with
        | (.error e, s2) => (.error e, s2)
        | (.ok sids, s2) =>
          (.ok ((sids.sort (fun a b => a ≤ b)).map
            (fun sid => lookupD sid (lookupD rid s2.source_id_path_cache []) "")), s2)
    else (.error (.cet (.recordNotFound rid)), s1)

/-- An external fragment object deserialized from raw dataset bytes; the
deserializer consumes the byte buffer and never fails (the payload layout is
opaque at this layer). -/
structure Fragment where
  bytes : List Nat
deriving DecidableEq

/-- HDF5RawDataFile::get_dataset_raw_data: resolve the dataset path, failing
on an invalid dataset, and read its bytes. -/
def get_dataset_raw_data (env : FileEnv) (dataset_path : String) : Except Err (List Nat) :=
  match navNode (rootNode env) (splitSlash dataset_path) with
  | some (HNode.dataset bytes) => .ok bytes
  | _ => .error (.cet (.invalidDataset dataset_path))

/-- HDF5RawDataFile::get_frag_ptr(dataset_name): raw bytes handed to the
fragment deserializer. -/
def get_frag_ptr_from_dataset (env : FileEnv) (dataset_name : String) : Except Err Fragment :=
  match get_dataset_raw_data env dataset_name with
  | .error e => .error e
  | .ok bytes => .ok ⟨bytes⟩

/-- HDF5RawDataFile::get_frag_ptr(rid, source_id): version gate (rejecting
filelayout versions below 2) first, then the record-id check, cache
population, path-cache lookup and dataset read. -/
def get_frag_ptr (env : FileEnv) (rid : record_id_t) (source_id : SourceID) (s : FileState) :
    Except Err Fragment × FileState :=
  if env.version < 2 then (.error (.cet (.incompatibleVersion env.version)), s)
  else
    match get_all_record_ids env s with
    | (.error e, s1) => (.error e, s1)
    | (.ok ids, s1) =>
      if rid ∈ ids then
        match add_record_level_info_to_caches_if_needed env rid s1 with
        | (.error e, s2) => (.error e, s2)
        | (.ok _, s2) =>
          match get_frag_ptr_from_dataset env
              (lookupD source_id (lookupD rid s2.source_id_path_cache []) "") with
          | .error e => (.error e, s2)
          | .ok f => (.ok f, s2)
      else (.error (.cet (.recordNotFound rid)), s1)

/-- The structured parameter set of the file layout; only the fields the
verified code consults are kept.  Modelled from the spec: the
hdf5filelayout::FileLayoutParams schema is not in the sources here. -/
structure FileLayoutParams where
  record_name_pref : String
  record_header_dataset_name : String
deriving DecidableEq

/-- Default-constructed layout parameters (the values a freshly constructed
FileLayoutParams carries before any JSON is applied). -/
instance : Inhabited FileLayoutParams := ⟨⟨"TriggerRecord", "TriggerRecordHeader"⟩⟩

/-- HDF5FileLayout: the parsed parameter set plus the filelayout version. -/
structure HDF5FileLayout where
  params : FileLayoutParams
  version : Nat
deriving DecidableEq

/-- Outcome of handing the filelayout_params attribute string to the external
JSON parser.  Modelled from the spec: nlohmann::json::parse and from_json are
external; a malformed attribute makes them throw their own exception type,
which is not a cet::exception. -/
inductive ParseOutcome where
  | parsed (p : FileLayoutParams)
  | malformed
deriving DecidableEq

/-- The attributes of the file root consulted during construction; `none`
means the attribute is absent.  Modelled from the spec: read_attribute fails
with an AttributeError (a cet::exception here) on an absent attribute (6). -/
structure RawFileAttrs where
  recorded_size : Option Nat
  filelayout_params : Option ParseOutcome
  filelayout_version : Option Nat
  record_type : Option String
deriving DecidableEq

/-- HDF5RawDataFile::read_file_layout: inside one try block, read and parse
the filelayout_params attribute, then read the filelayout_version attribute;
only a cet::exception is caught (leaving whatever was assigned before the
throw), after which the layout is built from the current fl_params and
version values.  A JSON-library exception escapes uncaught. -/
def read_file_layout (a : RawFileAttrs) : Except Err HDF5FileLayout :=
  match a.filelayout_params with
  | none => .ok ⟨default, 0⟩
  | some ParseOutcome.malformed => .error .jsonException
  | some (ParseOutcome.parsed p) =>
    match a.filelayout_version with
    | none => .ok ⟨p, 0⟩
    | some v => .ok ⟨p, v⟩

/-- HDF5RawDataFile::check_file_layout: a no-op below version 2; otherwise
re-read the record_type attribute (throwing on absence) and fail when it
differs from the layout's record-name tag. -/
def check_file_layout (a : RawFileAttrs) (layout : HDF5FileLayout) : Except Err Unit :=
  if layout.version < 2 then .ok ()
  else
    match a.record_type with
    | none => .error (.cet (.missingAttribute "record_type"))
    | some record_type =>
      if record_type ≠ layout.params.record_name_pref then
        .error (.cet (.badRecordType record_type layout.params.record_name_pref))
      else .ok ()

/-- The members of HDF5RawDataFile fixed by its constructor. -/
structure ConstructedFile where
  recorded_size : Nat
  layout : HDF5FileLayout
  record_type : String
deriving DecidableEq

/-- The reading constructor of HDF5RawDataFile after the file open: read the
optional recorded_size attribute (default 0), build the layout via
read_file_layout, default the record type to the layout's record-name tag
when the attribute is absent, then validate via check_file_layout.  The final
file-level geo-id fetch never fails (4.2) and contributes no further failure
case. -/
def constructHDF5RawDataFile (a : RawFileAttrs) : Except Err ConstructedFile :=
  let recorded_size := a.recorded_size.getD 0
  match read_file_layout a with
  | .error e => .error e
  | .ok layout =>
    let record_type := (a.record_type).getD layout.params.record_name_pref
    match check_file_layout a layout with
    | .error e => .error e
    | .ok _ => .ok ⟨recorded_size, layout, record_type⟩

/-- Equality of the eight per-record caches of two states (used to express
that an operation left every per-record cache untouched). -/
def perRecordCachesEq (s t : FileState) : Prop :=
  s.source_id_cache = t.source_id_cache ∧
  s.record_header_source_id_cache = t.record_header_source_id_cache ∧
  s.fragment_source_id_cache = t.fragment_source_id_cache ∧
  s.source_id_geo_id_cache = t.source_id_geo_id_cache ∧
  s.source_id_path_cache = t.source_id_path_cache ∧
  s.subsystem_source_id_cache = t.subsystem_source_id_cache ∧
  s.fragment_type_source_id_cache = t.fragment_type_source_id_cache ∧
  s.subdetector_source_id_cache = t.subdetector_source_id_cache

/-- Alignment of the per-record caches: every record id held by the sentinel
cache (the source-id-to-path cache that add_record_level_info checks) is held
by the seven other caches as well. -/
def CachesAligned (s : FileState) : Prop :=
  ∀ p ∈ s.source_id_path_cache,
    containsA p.1 s.source_id_cache = true ∧
    containsA p.1 s.record_header_source_id_cache = true ∧
    containsA p.1 s.fragment_source_id_cache = true ∧
    containsA p.1 s.source_id_geo_id_cache = true ∧
    containsA p.1 s.subsystem_source_id_cache = true ∧
    containsA p.1 s.fragment_type_source_id_cache = true ∧
    containsA p.1 s.subdetector_source_id_cache = true

deriving instance DecidableEq for Except

/-- The scenario file of testable property 6 of the spec: four child groups
under the root, three of them named with the TriggerRecord tag. -/
def env4 : FileEnv :=
  ⟨[("TriggerRecord00001", HNode.group []), ("TriggerRecord00002.0", HNode.group []),
    ("TriggerRecord00002.1", HNode.group []), ("Metadata", HNode.group [])],
   "TriggerRecord", "TriggerRecordHeader", 3, []⟩

/-- A concrete version-3 file with one record (1,0) holding one header
dataset and one fragment dataset, used to instantiate the general theorems. -/
def envW : FileEnv :=
  ⟨[("TriggerRecord1.0",
     HNode.group [("ds_a", HNode.dataset [1, 2, 3]), ("ds_h", HNode.dataset [9])])],
   "TriggerRecord", "TriggerRecordHeader", 3,
   [("TriggerRecord1.0",
     ⟨[(⟨0, 0⟩, "/TriggerRecord1.0/ds_h"), (⟨1, 1⟩, "/TriggerRecord1.0/ds_a")],
      ⟨0, 0⟩, [], [], []⟩)]⟩

/-- The same file as `envW` but declaring filelayout version 1 (for the
version-gate instantiation). -/
def envV1 : FileEnv :=
  ⟨envW.root_children, "TriggerRecord", "TriggerRecordHeader", 1, envW.record_groups_meta⟩

/-- The state of `envW` after its record-id set has been enumerated. -/
def wS0 : FileState := { initState with all_record_ids_in_file := [(1, 0)] }

/-- The state of `envW` after record (1,0) has additionally had its caches
populated. -/
def wS1 : FileState := populateCaches envW (1, 0) wS0

/-- The full source-id set of record (1,0) of `envW` (written in the order
the cache-population fold constructs it, so that it is definitionally equal
to the computed set). -/
def wFull : Finset SourceID := {⟨1, 1⟩, ⟨0, 0⟩}

/-- The fragment-only source-id set of record (1,0) of `envW`. -/
def wFrag : Finset SourceID := {⟨1, 1⟩}

/-- The record-header source id of record (1,0) of `envW`. -/
def wRh : SourceID := ⟨0, 0⟩

/-- A file whose only child group name carries a record number that fits the
unsigned 64-bit record-number field but not a signed 32-bit int. -/
def envBig : FileEnv :=
  ⟨[("TriggerRecord2147483648", HNode.group [])],
   "TriggerRecord", "TriggerRecordHeader", 3, []⟩

/-- A file whose only child group name contains the record-name tag away from
position zero. -/
def envSub : FileEnv :=
  ⟨[("AuxTriggerRecord7", HNode.group [])],
   "TriggerRecord", "TriggerRecordHeader", 3, []⟩

/-- Attributes of a version-2 file whose record_type attribute is absent. -/
def attrsNoRT : RawFileAttrs :=
  ⟨none, some (ParseOutcome.parsed default), some 2, none⟩

/-- Attributes of a version-2 trigger-record-layout file whose record_type
attribute declares the other record kind. -/
def attrsMismatch : RawFileAttrs :=
  ⟨none, some (ParseOutcome.parsed default), some 2, some "TimeSlice"⟩

/-- Attributes of a file whose filelayout_params attribute is present but is
not parseable JSON. -/
def attrsBadJson : RawFileAttrs := ⟨none, some ParseOutcome.malformed, none, none⟩

/-- Attributes of an old file carrying none of the layout attributes. -/
def attrsBare : RawFileAttrs := ⟨none, none, none, none⟩

theorem lookupA_insertA_self {α β : Type} [DecidableEq α] (k : α) (v : β)
    (l : List (α × β)) : lookupA k (insertA k v l) = some v := by
  induction l with
  | nil => simp [insertA, lookupA]
  | cons p t ih =>
    by_cases hk : k = p.1
    · simp [insertA, lookupA, hk]
    · simp only [insertA]
      rw [if_neg hk]
      simp [lookupA, hk, ih]

theorem lookupA_insertA_ne {α β : Type} [DecidableEq α] {j k : α} (v : β)
    (l : List (α × β)) (h : j ≠ k) : lookupA j (insertA k v l) = lookupA j l := by
  induction l with
  | nil => simp [insertA, lookupA, h]
  | cons p t ih =>
    by_cases hk : k = p.1
    · have hj : j ≠ p.1 := hk ▸ h
      simp only [insertA]
      rw [if_pos hk]
      simp [lookupA, h, hj]
    · simp only [insertA]
      rw [if_neg hk]
      by_cases hj : j = p.1
      · simp [lookupA, hj]
      · simp [lookupA, hj, ih]

theorem containsA_insertA_self {α β : Type} [DecidableEq α] (k : α) (v : β)
    (l : List (α × β)) : containsA k (insertA k v l) = true := by
  simp [containsA, lookupA_insertA_self]

theorem containsA_insertA_mono {α β : Type} [DecidableEq α] {j k : α} (v : β)
    {l : List (α × β)} (h : containsA j l = true) :
    containsA j (insertA k v l) = true := by
  by_cases hj : j = k
  · subst hj; exact containsA_insertA_self j v l
  · simpa [containsA, lookupA_insertA_ne v l hj] using h

theorem mem_insertA {α β : Type} [DecidableEq α] {k : α} {v : β}
    {l : List (α × β)} {p : α × β} (h : p ∈ insertA k v l) :
    p = (k, v) ∨ p ∈ l := by
  induction l with
  | nil => simpa [insertA] using h
  | cons q t ih =>
    by_cases hk : k = q.1
    · simp only [insertA] at h
      rw [if_pos hk] at h
      rcases List.mem_cons.mp h with h1 | h1
      · exact Or.inl h1
      · exact Or.inr (List.mem_cons_of_mem q h1)
    · simp only [insertA] at h
      rw [if_neg hk] at h
      rcases List.mem_cons.mp h with h1 | h1
      · exact Or.inr (h1 ▸ List.mem_cons_self q t)
      · rcases ih h1 with h2 | h2
        · exact Or.inl h2
        · exact Or.inr (List.mem_cons_of_mem q h2)

theorem containsA_of_mem {α β : Type} [DecidableEq α] {k : α} {v : β}
    {l : List (α × β)} (h : (k, v) ∈ l) : containsA k l = true := by
  induction l with
  | nil => simp at h
  | cons q t ih =>
    rcases List.mem_cons.mp h with h1 | h1
    · simp [containsA, lookupA, ← h1]
    · by_cases hk : k = q.1
      · simp [containsA, lookupA, hk]
      · simpa [containsA, lookupA, hk] using ih h1

theorem lookupA_mem {α β : Type} [DecidableEq α] {k : α} {v : β}
    {l : List (α × β)} (h : lookupA k l = some v) : (k, v) ∈ l := by
  induction l with
  | nil => simp [lookupA] at h
  | cons q t ih =>
    cases q with
    | mk a b =>
      by_cases hk : k = a
      · subst hk
        simp only [lookupA, if_pos] at h
        obtain rfl : b = v := by simpa using h
        exact List.mem_cons_self _ _
      · simp only [lookupA] at h
        rw [if_neg (by simpa using hk)] at h
        exact List.mem_cons_of_mem _ (ih h)

theorem mem_foldl_insert (spm : List (SourceID × String)) (acc : Finset SourceID)
    (x : SourceID) :
    (x ∈ spm.foldl (fun a e => insert e.1 a) acc) ↔
      x ∈ acc ∨ x ∈ spm.map Prod.fst := by
  induction spm generalizing acc with
  | nil => simp
  | cons e t ih =>
    simp only [List.foldl_cons, List.map_cons, List.mem_cons, ih, Finset.mem_insert]
    tauto

theorem mem_full_source_id_set (spm : List (SourceID × String)) (x : SourceID) :
    x ∈ full_source_id_set spm ↔ x ∈ spm.map Prod.fst := by
  simpa [full_source_id_set] using mem_foldl_insert spm ∅ x

theorem mem_foldl_insert_ne (rh : SourceID) (spm : List (SourceID × String))
    (acc : Finset SourceID) (x : SourceID) :
    (x ∈ spm.foldl (fun a e => if e.1 ≠ rh then insert e.1 a else a) acc) ↔
      x ∈ acc ∨ (x ∈ spm.map Prod.fst ∧ x ≠ rh) := by
  induction spm generalizing acc with
  | nil => simp
  | cons e t ih =>
    simp only [List.foldl_cons, List.map_cons, List.mem_cons, ih]
    by_cases he : e.1 = rh
    · rw [if_neg (by simp [he])]
      constructor
      · rintro (h1 | h1)
        · exact Or.inl h1
        · exact Or.inr ⟨Or.inr h1.1, h1.2⟩
      · rintro (h1 | ⟨h1 | h1, h2⟩)
        · exact Or.inl h1
        · exact absurd (h1.trans he) h2
        · exact Or.inr ⟨h1, h2⟩
    · rw [if_pos (by simp [he])]
      simp only [Finset.mem_insert]
      constructor
      · rintro ((h1 | h1) | h1)
        · exact Or.inr ⟨Or.inl h1, h1 ▸ he⟩
        · exact Or.inl h1
        · exact Or.inr ⟨Or.inr h1.1, h1.2⟩
      · rintro (h1 | ⟨h1 | h1, h2⟩)
        · exact Or.inl (Or.inr h1)
        · exact Or.inl (Or.inl h1)
        · exact Or.inr ⟨h1, h2⟩

theorem mem_fragment_source_id_set (rh : SourceID) (spm : List (SourceID × String))
    (x : SourceID) :
    x ∈ fragment_source_id_set rh spm ↔ x ∈ spm.map Prod.fst ∧ x ≠ rh := by
  simpa [fragment_source_id_set] using mem_foldl_insert_ne rh spm ∅ x

theorem get_all_record_ids_snd (env : FileEnv) (s : FileState) :
    ∃ l, (get_all_record_ids env s).2 = { s with all_record_ids_in_file := l } := by
  unfold get_all_record_ids
  split
  · exact ⟨s.all_record_ids_in_file, rfl⟩
  · split
    · exact ⟨_, rfl⟩
    · exact ⟨_, rfl⟩

theorem get_all_record_ids_cachesEq (env : FileEnv) (s : FileState) :
    perRecordCachesEq (get_all_record_ids env s).2 s := by
  obtain ⟨l, hl⟩ := get_all_record_ids_snd env s
  rw [hl]
  exact ⟨rfl, rfl, rfl, rfl, rfl, rfl, rfl, rfl⟩

theorem get_all_record_ids_fileLevel (env : FileEnv) (s : FileState) :
    ((get_all_record_ids env s).2).file_level_source_id_geo_id_map
      = s.file_level_source_id_geo_id_map := by
  obtain ⟨l, hl⟩ := get_all_record_ids_snd env s
  rw [hl]

theorem get_all_record_ids_ok_all {env : FileEnv} {s : FileState}
    {ids : List record_id_t} {s1 : FileState}
    (h : get_all_record_ids env s = (.ok ids, s1)) :
    s1.all_record_ids_in_file = ids := by
  unfold get_all_record_ids at h
  split at h
  · simp only [Prod.mk.injEq] at h
    obtain ⟨h1, rfl⟩ := h
    exact Except.ok.inj h1
  · split at h
    · simp only [Prod.mk.injEq] at h
      obtain ⟨h1, rfl⟩ := h
      simpa using Except.ok.inj h1
    · simp only [Prod.mk.injEq] at h
      exact absurd h.1 (by simp)

theorem get_all_record_ids_memo {env : FileEnv} {s : FileState}
    {ids : List record_id_t} {s1 : FileState}
    (h : get_all_record_ids env s = (.ok ids, s1)) (hne : ids ≠ []) :
    get_all_record_ids env s1 = (.ok ids, s1) := by
  have hall := get_all_record_ids_ok_all h
  unfold get_all_record_ids
  rw [if_pos (by rw [hall]; exact hne), hall]

theorem add_ok_cases {env : FileEnv} {rid : record_id_t} {s s' : FileState}
    (h : add_record_level_info_to_caches_if_needed env rid s = (.ok (), s')) :
    (containsA rid s.source_id_path_cache = true ∧ s' = s) ∨
    (containsA rid s.source_id_path_cache = false ∧ s' = populateCaches env rid s) := by
  unfold add_record_level_info_to_caches_if_needed at h
  by_cases hc : containsA rid s.source_id_path_cache = true
  · rw [if_pos hc] at h
    simp only [Prod.mk.injEq] at h
    exact Or.inl ⟨hc, h.2.symm⟩
  · rw [if_neg hc] at h
    split at h
    · simp only [Prod.mk.injEq] at h
      exact Or.inr ⟨by simpa using hc, h.2.symm⟩
    · simp only [Prod.mk.injEq] at h
      exact absurd h.1 (by simp)

theorem add_snd_preserves (env : FileEnv) (rid : record_id_t) (s : FileState) :
    ((add_record_level_info_to_caches_if_needed env rid s).2).file_level_source_id_geo_id_map
        = s.file_level_source_id_geo_id_map ∧
    ((add_record_level_info_to_caches_if_needed env rid s).2).all_record_ids_in_file
        = s.all_record_ids_in_file := by
  unfold add_record_level_info_to_caches_if_needed
  split
  · exact ⟨rfl, rfl⟩
  · split
    · exact ⟨rfl, rfl⟩
    · exact ⟨rfl, rfl⟩

theorem populateCaches_sentinel (env : FileEnv) (rid : record_id_t) (s : FileState) :
    containsA rid (populateCaches env rid s).source_id_path_cache = true := by
  simp only [populateCaches]
  exact containsA_insertA_self _ _ _

theorem add_ok_sentinel {env : FileEnv} {rid : record_id_t} {s s' : FileState}
    (h : add_record_level_info_to_caches_if_needed env rid s = (.ok (), s')) :
    containsA rid s'.source_id_path_cache = true := by
  rcases add_ok_cases h with ⟨hc, rfl⟩ | ⟨hc, rfl⟩
  · exact hc
  · exact populateCaches_sentinel env rid s

theorem add_of_sentinel {env : FileEnv} {rid : record_id_t} {s : FileState}
    (hc : containsA rid s.source_id_path_cache = true) :
    add_record_level_info_to_caches_if_needed env rid s = (.ok (), s) := by
  unfold add_record_level_info_to_caches_if_needed
  rw [if_pos hc]

theorem get_all_ok_cachesEq {env : FileEnv} {s : FileState} {ids : List record_id_t}
    {s0 : FileState} (hga : get_all_record_ids env s = (.ok ids, s0)) :
    perRecordCachesEq s0 s := by
  have h2 := get_all_record_ids_cachesEq env s
  rwa [hga] at h2

theorem populateCaches_lookups (env : FileEnv) (rid : record_id_t) (s : FileState) :
    lookupA rid (populateCaches env rid s).source_id_cache
        = some (full_source_id_set (recordGroupMetaOfRid env rid).source_id_path_map) ∧
    lookupA rid (populateCaches env rid s).record_header_source_id_cache
        = some (recordGroupMetaOfRid env rid).rh_sid ∧
    lookupA rid (populateCaches env rid s).fragment_source_id_cache
        = some (fragment_source_id_set (recordGroupMetaOfRid env rid).rh_sid
            (recordGroupMetaOfRid env rid).source_id_path_map) ∧
    lookupA rid (populateCaches env rid s).source_id_path_cache
        = some (recordGroupMetaOfRid env rid).source_id_path_map := by
  refine ⟨?_, ?_, ?_, ?_⟩ <;>
    (simp only [populateCaches]; exact lookupA_insertA_self _ _ _)

theorem populateCaches_contains (env : FileEnv) (rid : record_id_t) (s : FileState) :
    containsA rid (populateCaches env rid s).source_id_cache = true ∧
    containsA rid (populateCaches env rid s).record_header_source_id_cache = true ∧
    containsA rid (populateCaches env rid s).fragment_source_id_cache = true ∧
    containsA rid (populateCaches env rid s).source_id_geo_id_cache = true ∧
    containsA rid (populateCaches env rid s).source_id_path_cache = true ∧
    containsA rid (populateCaches env rid s).subsystem_source_id_cache = true ∧
    containsA rid (populateCaches env rid s).fragment_type_source_id_cache = true ∧
    containsA rid (populateCaches env rid s).subdetector_source_id_cache = true := by
  refine ⟨?_, ?_, ?_, ?_, ?_, ?_, ?_, ?_⟩ <;>
    (simp only [populateCaches]; exact containsA_insertA_self _ _ _)

theorem get_source_ids_fresh {env : FileEnv} {rid : record_id_t} {s : FileState}
    {full : Finset SourceID} {s1 : FileState}
    (hfresh : containsA rid s.source_id_path_cache = false)
    (h : get_source_ids env rid s = (.ok full, s1)) :
    full = full_source_id_set (recordGroupMetaOfRid env rid).source_id_path_map ∧
    containsA rid s1.source_id_path_cache = true ∧
    lookupA rid s1.record_header_source_id_cache
        = some (recordGroupMetaOfRid env rid).rh_sid ∧
    lookupA rid s1.fragment_source_id_cache
        = some (fragment_source_id_set (recordGroupMetaOfRid env rid).rh_sid
            (recordGroupMetaOfRid env rid).source_id_path_map) := by
  unfold get_source_ids at h
  split at h
  · simp at h
  next ids s0 hga =>
    by_cases hmem : rid ∈ ids
    · rw [if_pos hmem] at h
      split at h
      · simp at h
      next u s2 hadd =>
        cases u
        simp only [Prod.mk.injEq] at h
        obtain ⟨h1, rfl⟩ := h
        have hfresh0 : containsA rid s0.source_id_path_cache = false := by
          rw [(get_all_ok_cachesEq hga).2.2.2.2.1]
          exact hfresh
        rcases add_ok_cases hadd with ⟨hc, rfl⟩ | ⟨-, rfl⟩
        · rw [hc] at hfresh0
          exact absurd hfresh0 (by simp)
        · obtain ⟨hp1, hp2, hp3, hp4⟩ := populateCaches_lookups env rid s0
          refine ⟨?_, ?_, hp2, hp3⟩
          · rw [← Except.ok.inj h1, lookupD, hp1]
            rfl
          · exact (populateCaches_contains env rid s0).2.2.2.2.1
    · rw [if_neg hmem] at h
      simp at h

theorem get_record_header_source_id_cached {env : FileEnv} {rid : record_id_t}
    {s : FileState} {rh : SourceID} {s2 : FileState}
    (hsent : containsA rid s.source_id_path_cache = true)
    (h : get_record_header_source_id env rid s = (.ok rh, s2)) :
    rh = lookupD rid s.record_header_source_id_cache default ∧
    perRecordCachesEq s2 s := by
  unfold get_record_header_source_id at h
  split at h
  · simp at h
  next ids s0 hga =>
    by_cases hmem : rid ∈ ids
    · rw [if_pos hmem] at h
      have hEq := get_all_ok_cachesEq hga
      have hsent0 : containsA rid s0.source_id_path_cache = true := by
        rw [hEq.2.2.2.2.1]; exact hsent
      rw [add_of_sentinel hsent0] at h
      simp only [Prod.mk.injEq] at h
      obtain ⟨h1, rfl⟩ := h
      refine ⟨?_, hEq⟩
      rw [← Except.ok.inj h1, lookupD, lookupD, hEq.2.1]
    · rw [if_neg hmem] at h
      simp at h

theorem get_fragment_source_ids_cached {env : FileEnv} {rid : record_id_t}
    {s : FileState} {frag : Finset SourceID} {s2 : FileState}
    (hsent : containsA rid s.source_id_path_cache = true)
    (h : get_fragment_source_ids env rid s = (.ok frag, s2)) :
    frag = lookupD rid s.fragment_source_id_cache ∅ ∧
    perRecordCachesEq s2 s := by
  unfold get_fragment_source_ids at h
  split at h
  · simp at h
  next ids s0 hga =>
    by_cases hmem : rid ∈ ids
    · rw [if_pos hmem] at h
      have hEq := get_all_ok_cachesEq hga
      have hsent0 : containsA rid s0.source_id_path_cache = true := by
        rw [hEq.2.2.2.2.1]; exact hsent
      rw [add_of_sentinel hsent0] at h
      simp only [Prod.mk.injEq] at h
      obtain ⟨h1, rfl⟩ := h
      refine ⟨?_, hEq⟩
      rw [← Except.ok.inj h1, lookupD, lookupD, hEq.2.2.1]
    · rw [if_neg hmem] at h
      simp at h

theorem stoiCL_err_shape {cs : List Char} {e : Err} (h : stoiCL cs = .error e) :
    e = .cet .stoiInvalidArgument ∨ e = .cet .stoiOutOfRange := by
  unfold stoiCL at h
  dsimp only at h
  split at h
  · exact Or.inl (Except.error.inj h).symm
  · split at h
    · exact Or.inr (Except.error.inj h).symm
    · exact absurd h (by simp)

theorem scan_names_err_shape (p : String) (names : List String) :
    ∀ acc e ids, scan_names p names acc = (.error e, ids) →
      e = .cet .stoiInvalidArgument ∨ e = .cet .stoiOutOfRange := by
  induction names with
  | nil => intro acc e ids h; simp [scan_names] at h
  | cons name rest ih =>
    intro acc e ids h
    unfold scan_names at h
    split at h
    · exact ih acc e ids h
    · dsimp only at h
      split at h
      · split at h
        next e' hst =>
          simp only [Prod.mk.injEq] at h
          obtain ⟨h1, -⟩ := h
          obtain rfl := Except.error.inj h1
          exact stoiCL_err_shape hst
        · exact ih _ e ids h
      · split at h
        next e' hst =>
          simp only [Prod.mk.injEq] at h
          obtain ⟨h1, -⟩ := h
          obtain rfl := Except.error.inj h1
          exact stoiCL_err_shape hst
        next n hst =>
          split at h
          next e' hst2 =>
            simp only [Prod.mk.injEq] at h
            obtain ⟨h1, -⟩ := h
            obtain rfl := Except.error.inj h1
            exact stoiCL_err_shape hst2
          · exact ih _ e ids h

theorem get_all_err_shape {env : FileEnv} {s : FileState} {e : Err} {s1 : FileState}
    (h : get_all_record_ids env s = (.error e, s1)) :
    e = .cet .stoiInvalidArgument ∨ e = .cet .stoiOutOfRange := by
  unfold get_all_record_ids at h
  split at h
  · simp at h
  · split at h
    next r hscan => simp at h
    next e' ids hscan =>
      simp only [Prod.mk.injEq] at h
      obtain ⟨h1, -⟩ := h
      obtain rfl := Except.error.inj h1
      exact scan_names_err_shape _ _ _ _ _ hscan

theorem add_err_shape {env : FileEnv} {rid : record_id_t} {s s' : FileState} {e : Err}
    (h : add_record_level_info_to_caches_if_needed env rid s = (.error e, s')) :
    e = .cet (.invalidGroup (recordGroupNameOf env rid)) ∧ s' = s := by
  unfold add_record_level_info_to_caches_if_needed at h
  split at h
  · simp at h
  · split at h
    · simp at h
    · simp only [Prod.mk.injEq] at h
      exact ⟨(Except.error.inj h.1).symm, h.2.symm⟩

theorem get_dataset_paths_err_shape {env : FileEnv} {top : String} {e : Err}
    (h : get_dataset_paths env top = .error e) :
    ∃ nm, e = .cet (.invalidGroup nm) := by
  unfold get_dataset_paths at h
  dsimp only at h
  split at h
  · simp at h
  · exact ⟨_, (Except.error.inj h).symm⟩

theorem get_frag_ptr_from_dataset_err_shape {env : FileEnv} {nm : String} {e : Err}
    (h : get_frag_ptr_from_dataset env nm = .error e) :
    ∃ p, e = .cet (.invalidDataset p) := by
  unfold get_frag_ptr_from_dataset at h
  split at h
  next e' hraw =>
    unfold get_dataset_raw_data at hraw
    split at hraw
    · simp at hraw
    · exact ⟨_, (Except.error.inj h).symm.trans (Except.error.inj hraw).symm⟩
  · simp at h

theorem get_source_ids_fileLevel (env : FileEnv) (rid : record_id_t) (s : FileState) :
    ((get_source_ids env rid s).2).file_level_source_id_geo_id_map
      = s.file_level_source_id_geo_id_map := by
  unfold get_source_ids
  split
  next e s0 heq =>
    have h2 := get_all_record_ids_fileLevel env s
    rwa [heq] at h2
  next ids s0 heq =>
    have hL0 : s0.file_level_source_id_geo_id_map = s.file_level_source_id_geo_id_map := by
      have h2 := get_all_record_ids_fileLevel env s
      rwa [heq] at h2
    by_cases hmem : rid ∈ ids
    · rw [if_pos hmem]
      split
      next e s2 heq2 =>
        have h3 := (add_snd_preserves env rid s0).1
        rw [heq2] at h3
        exact h3.trans hL0
      next u s2 heq2 =>
        have h3 := (add_snd_preserves env rid s0).1
        rw [heq2] at h3
        exact h3.trans hL0
    · rw [if_neg hmem]
      exact hL0

theorem get_record_header_source_id_fileLevel (env : FileEnv) (rid : record_id_t)
    (s : FileState) :
    ((get_record_header_source_id env rid s).2).file_level_source_id_geo_id_map
      = s.file_level_source_id_geo_id_map := by
  unfold get_record_header_source_id
  split
  next e s0 heq =>
    have h2 := get_all_record_ids_fileLevel env s
    rwa [heq] at h2
  next ids s0 heq =>
    have hL0 : s0.file_level_source_id_geo_id_map = s.file_level_source_id_geo_id_map := by
      have h2 := get_all_record_ids_fileLevel env s
      rwa [heq] at h2
    by_cases hmem : rid ∈ ids
    · rw [if_pos hmem]
      split
      next e s2 heq2 =>
        have h3 := (add_snd_preserves env rid s0).1
        rw [heq2] at h3
        exact h3.trans hL0
      next u s2 heq2 =>
        have h3 := (add_snd_preserves env rid s0).1
        rw [heq2] at h3
        exact h3.trans hL0
    · rw [if_neg hmem]
      exact hL0

theorem get_fragment_source_ids_fileLevel (env : FileEnv) (rid : record_id_t)
    (s : FileState) :
    ((get_fragment_source_ids env rid s).2).file_level_source_id_geo_id_map
      = s.file_level_source_id_geo_id_map := by
  unfold get_fragment_source_ids
  split
  next e s0 heq =>
    have h2 := get_all_record_ids_fileLevel env s
    rwa [heq] at h2
  next ids s0 heq =>
    have hL0 : s0.file_level_source_id_geo_id_map = s.file_level_source_id_geo_id_map := by
      have h2 := get_all_record_ids_fileLevel env s
      rwa [heq] at h2
    by_cases hmem : rid ∈ ids
    · rw [if_pos hmem]
      split
      next e s2 heq2 =>
        have h3 := (add_snd_preserves env rid s0).1
        rw [heq2] at h3
        exact h3.trans hL0
      next u s2 heq2 =>
        have h3 := (add_snd_preserves env rid s0).1
        rw [heq2] at h3
        exact h3.trans hL0
    · rw [if_neg hmem]
      exact hL0

theorem get_fragment_dataset_paths_fileLevel (env : FileEnv) (rid : record_id_t)
    (s : FileState) :
    ((get_fragment_dataset_paths env rid s).2).file_level_source_id_geo_id_map
      = s.file_level_source_id_geo_id_map := by
  unfold get_fragment_dataset_paths
  split
  next e s0 heq =>
    have h2 := get_all_record_ids_fileLevel env s
    rwa [heq] at h2
  next ids s0 heq =>
    have hL0 : s0.file_level_source_id_geo_id_map = s.file_level_source_id_geo_id_map := by
      have h2 := get_all_record_ids_fileLevel env s
      rwa [heq] at h2
    by_cases hmem : rid ∈ ids
    · rw [if_pos hmem]
      split
      · dsimp only
        split
        · exact hL0
        · exact hL0
      · split
        next e s2 heq2 =>
          have h3 := get_fragment_source_ids_fileLevel env rid s0
          rw [heq2] at h3
          exact h3.trans hL0
        next sids s2 heq2 =>
          have h3 := get_fragment_source_ids_fileLevel env rid s0
          rw [heq2] at h3
          exact h3.trans hL0
    · rw [if_neg hmem]
      exact hL0

theorem get_frag_ptr_fileLevel (env : FileEnv) (rid : record_id_t) (sid : SourceID)
    (s : FileState) :
    ((get_frag_ptr env rid sid s).2).file_level_source_id_geo_id_map
      = s.file_level_source_id_geo_id_map := by
  unfold get_frag_ptr
  split
  · rfl
  · split
    next e s0 heq =>
      have h2 := get_all_record_ids_fileLevel env s
      rwa [heq] at h2
    next ids s0 heq =>
      have hL0 : s0.file_level_source_id_geo_id_map = s.file_level_source_id_geo_id_map := by
        have h2 := get_all_record_ids_fileLevel env s
        rwa [heq] at h2
      by_cases hmem : rid ∈ ids
      · rw [if_pos hmem]
        split
        next e s2 heq2 =>
          have h3 := (add_snd_preserves env rid s0).1
          rw [heq2] at h3
          exact h3.trans hL0
        next u s2 heq2 =>
          have h3 := (add_snd_preserves env rid s0).1
          rw [heq2] at h3
          split
          · exact h3.trans hL0
          · exact h3.trans hL0
      · rw [if_neg hmem]
        exact hL0

/-- Claim C1: for every record identifier accepted by the queries, the set
returned by get_fragment_source_ids united with the singleton of
get_record_header_source_id equals the set returned by get_source_ids, and
get_fragment_source_ids does not contain the record-header source id.  The
hypothesis on recordGroupMetaOfRid is the spec-modelled resolver guarantee
(4.2) that the source-id-to-path map enumerates the record group's fragment
and header datasets, so the record-header source id is one of its keys. -/
theorem C1_fragment_header_partition (env : FileEnv) (rid : record_id_t)
    (s s1 s2 s3 : FileState) (full frag : Finset SourceID) (rh : SourceID)
    (hfresh : containsA rid s.source_id_path_cache = false)
    (hrh : (recordGroupMetaOfRid env rid).rh_sid
        ∈ (recordGroupMetaOfRid env rid).source_id_path_map.map Prod.fst)
    (h1 : get_source_ids env rid s = (.ok full, s1))
    (h2 : get_record_header_source_id env rid s1 = (.ok rh, s2))
    (h3 : get_fragment_source_ids env rid s2 = (.ok frag, s3)) :
    frag ∪ {rh} = full ∧ rh ∉ frag := by
  obtain ⟨hfull, hsent1, hrh1, hfrag1⟩ := get_source_ids_fresh hfresh h1
  obtain ⟨hrhv, hEq2⟩ := get_record_header_source_id_cached hsent1 h2
  have hsent2 : containsA rid s2.source_id_path_cache = true := by
    rw [hEq2.2.2.2.2.1]
    exact hsent1
  obtain ⟨hfragv, hEq3⟩ := get_fragment_source_ids_cached hsent2 h3
  have hrhval : rh = (recordGroupMetaOfRid env rid).rh_sid := by
    rw [hrhv, lookupD, hrh1]
    rfl
  have hfragval : frag = fragment_source_id_set (recordGroupMetaOfRid env rid).rh_sid
      (recordGroupMetaOfRid env rid).source_id_path_map := by
    rw [hfragv, hEq2.2.2.1, lookupD, hfrag1]
    rfl
  constructor
  · ext x
    simp only [Finset.mem_union, Finset.mem_singleton, hfull, hfragval, hrhval,
      mem_full_source_id_set, mem_fragment_source_id_set]
    constructor
    · rintro (⟨hx, -⟩ | rfl)
      · exact hx
      · exact hrh
    · intro hx
      by_cases hxr : x = (recordGroupMetaOfRid env rid).rh_sid
      · exact Or.inr hxr
      · exact Or.inl ⟨hx, hxr⟩
  · rw [hfragval, hrhval]
    simp [mem_fragment_source_id_set]

/-- Witness for C1 at the concrete version-3 file `envW` and record (1,0). -/
theorem C1_witness : wFrag ∪ {wRh} = wFull ∧ wRh ∉ wFrag :=
  C1_fragment_header_partition envW (1, 0) initState wS1 wS1 wS1 wFull wFrag wRh
    (by decide) (by decide) rfl rfl rfl

/-- Claim C2: whenever add_record_level_info_to_caches_if_needed returns
normally on a state whose caches are aligned (every record id held by the
sentinel cache is held by all the others, which holds of the freshly
constructed state and is preserved by the routine itself), all eight
per-record caches hold an entry for the requested record id afterwards, and
alignment is preserved, so no later cache lookup for it can miss. -/
theorem C2_all_caches_populated (env : FileEnv) (rid : record_id_t)
    (s s' : FileState) (hal : CachesAligned s)
    (h : add_record_level_info_to_caches_if_needed env rid s = (.ok (), s')) :
    CachesAligned s' ∧
    containsA rid s'.source_id_cache = true ∧
    containsA rid s'.record_header_source_id_cache = true ∧
    containsA rid s'.fragment_source_id_cache = true ∧
    containsA rid s'.source_id_geo_id_cache = true ∧
    containsA rid s'.source_id_path_cache = true ∧
    containsA rid s'.subsystem_source_id_cache = true ∧
    containsA rid s'.fragment_type_source_id_cache = true ∧
    containsA rid s'.subdetector_source_id_cache = true := by
  rcases add_ok_cases h with ⟨hc, rfl⟩ | ⟨hc, rfl⟩
  · refine ⟨hal, ?_⟩
    obtain ⟨v, hv⟩ : ∃ v, lookupA rid s'.source_id_path_cache = some v := by
      cases hx : lookupA rid s'.source_id_path_cache with
      | none => rw [containsA, hx] at hc; simp at hc
      | some v => exact ⟨v, rfl⟩
    have hmem := lookupA_mem hv
    have hall := hal (rid, v) hmem
    exact ⟨hall.1, hall.2.1, hall.2.2.1, hall.2.2.2.1, hc, hall.2.2.2.2.1,
      hall.2.2.2.2.2.1, hall.2.2.2.2.2.2⟩
  · obtain ⟨c1, c2, c3, c4, c5, c6, c7, c8⟩ := populateCaches_contains env rid s
    refine ⟨?_, c1, c2, c3, c4, c5, c6, c7, c8⟩
    intro p hp
    simp only [populateCaches] at hp
    rcases mem_insertA hp with hpe | hmem
    · have hp1 : p.1 = rid := by rw [hpe]
      rw [hp1]
      exact ⟨c1, c2, c3, c4, c6, c7, c8⟩
    · have hall := hal p hmem
      simp only [populateCaches]
      exact ⟨containsA_insertA_mono _ hall.1, containsA_insertA_mono _ hall.2.1,
        containsA_insertA_mono _ hall.2.2.1, containsA_insertA_mono _ hall.2.2.2.1,
        containsA_insertA_mono _ hall.2.2.2.2.1, containsA_insertA_mono _ hall.2.2.2.2.2.1,
        containsA_insertA_mono _ hall.2.2.2.2.2.2⟩

/-- Witness for C2 at `envW`, record (1,0), from the enumerated state. -/
theorem C2_witness :
    CachesAligned wS1 ∧
    containsA (1, 0) wS1.source_id_cache = true ∧
    containsA (1, 0) wS1.record_header_source_id_cache = true ∧
    containsA (1, 0) wS1.fragment_source_id_cache = true ∧
    containsA (1, 0) wS1.source_id_geo_id_cache = true ∧
    containsA (1, 0) wS1.source_id_path_cache = true ∧
    containsA (1, 0) wS1.subsystem_source_id_cache = true ∧
    containsA (1, 0) wS1.fragment_type_source_id_cache = true ∧
    containsA (1, 0) wS1.subdetector_source_id_cache = true :=
  C2_all_caches_populated envW (1, 0) wS0 wS1
    (by intro p hp; simp [wS0, initState, mkState] at hp) rfl

/-- Claim C3: add_record_level_info_to_caches_if_needed is idempotent: after a
normal return producing state s', running it again on s' returns normally and
leaves s' exactly as it is (the second call hits the sentinel and skips all
work).  This holds for every record id, in particular those enumerated by
get_all_record_ids. -/
theorem C3_add_idempotent (env : FileEnv) (rid : record_id_t) (s s' : FileState)
    (h : add_record_level_info_to_caches_if_needed env rid s = (.ok (), s')) :
    add_record_level_info_to_caches_if_needed env rid s' = (.ok (), s') :=
  add_of_sentinel (add_ok_sentinel h)

/-- Witness for C3 at `envW` and record (1,0). -/
theorem C3_witness :
    add_record_level_info_to_caches_if_needed envW (1, 0) wS1 = (.ok (), wS1) :=
  C3_add_idempotent envW (1, 0) wS0 wS1 rfl

/-- Claim C4: on a file with record-name tag "TriggerRecord" and root child
groups TriggerRecord00001, TriggerRecord00002.0, TriggerRecord00002.1 and
Metadata, get_all_record_ids returns exactly the ordered duplicate-free set
{(1,0), (2,0), (2,1)}: a name without a dot gets sequence number 0, the part
after a dot is parsed as the sequence number, and Metadata is skipped. -/
theorem C4_enumeration_scenario :
    (get_all_record_ids env4 initState).1 = Except.ok [(1, 0), (2, 0), (2, 1)] := by
  decide

/-- Claim C9: populating the per-record caches, and every query built on that
population, leaves the file-level source-id-to-geo-id map exactly as it was
(the record-level geo-id map is built in a local copy). -/
theorem C9_file_level_map_frame (env : FileEnv) (rid : record_id_t) (sid : SourceID)
    (s : FileState) :
    ((add_record_level_info_to_caches_if_needed env rid s).2).file_level_source_id_geo_id_map
        = s.file_level_source_id_geo_id_map ∧
    ((get_source_ids env rid s).2).file_level_source_id_geo_id_map
        = s.file_level_source_id_geo_id_map ∧
    ((get_record_header_source_id env rid s).2).file_level_source_id_geo_id_map
        = s.file_level_source_id_geo_id_map ∧
    ((get_fragment_source_ids env rid s).2).file_level_source_id_geo_id_map
        = s.file_level_source_id_geo_id_map ∧
    ((get_fragment_dataset_paths env rid s).2).file_level_source_id_geo_id_map
        = s.file_level_source_id_geo_id_map ∧
    ((get_frag_ptr env rid sid s).2).file_level_source_id_geo_id_map
        = s.file_level_source_id_geo_id_map :=
  ⟨(add_snd_preserves env rid s).1, get_source_ids_fileLevel env rid s,
   get_record_header_source_id_fileLevel env rid s,
   get_fragment_source_ids_fileLevel env rid s,
   get_fragment_dataset_paths_fileLevel env rid s,
   get_frag_ptr_fileLevel env rid sid s⟩

/-- Claim C10: the record-number parse uses std::stoi, a signed 32-bit
conversion, so a child group whose numeric part is 2147483648 = 2^31 (a valid
unsigned 64-bit record number) makes enumeration throw out_of_range instead
of returning that record id; and the record-name-tag match is a substring
search, so a child name containing the tag away from position zero is still
parsed as a record. -/
theorem C10_stoi_limits_and_substring_match :
    (get_all_record_ids envBig initState).1 = Except.error (.cet .stoiOutOfRange) ∧
    (2147483648 : Nat) ≤ 18446744073709551615 ∧
    (get_all_record_ids envSub initState).1 = Except.ok [(7, 0)] := by
  refine ⟨by decide, by norm_num, by decide⟩

theorem get_fragment_source_ids_err_shape {env : FileEnv} {rid : record_id_t}
    {s : FileState} {ids : List record_id_t}
    (hga : get_all_record_ids env s = (.ok ids, s)) (hmem : rid ∈ ids)
    {e : Err} {s2 : FileState}
    (h : get_fragment_source_ids env rid s = (.error e, s2)) :
    e = .cet (.invalidGroup (recordGroupNameOf env rid)) := by
  unfold get_fragment_source_ids at h
  split at h
  next e' s0 heq => rw [hga] at heq; simp at heq
  next ids' s0 heq =>
    rw [hga] at heq
    simp only [Prod.mk.injEq] at heq
    obtain ⟨h1, rfl⟩ := heq
    obtain rfl := Except.ok.inj h1
    rw [if_pos hmem] at h
    split at h
    next e2 s3 hadd =>
      simp only [Prod.mk.injEq] at h
      obtain ⟨h2, -⟩ := h
      obtain rfl := Except.error.inj h2
      exact (add_err_shape hadd).1
    next u s3 hadd => simp at h

/-- Claim C5: a per-record query with a record identifier absent from the
enumerated set, here get_fragment_dataset_paths, fails with a RecordNotFound
error carrying that identifier, before any per-record cache is modified; the
same query with an enumerated identifier never raises RecordNotFound. -/
theorem C5_record_not_found (env : FileEnv) (rid : record_id_t)
    (s s1 : FileState) (ids : List record_id_t)
    (h : get_all_record_ids env s = (.ok ids, s1)) :
    (rid ∉ ids →
      get_fragment_dataset_paths env rid s
          = (.error (.cet (.recordNotFound rid)), s1) ∧
      perRecordCachesEq s1 s) ∧
    (rid ∈ ids →
      ∀ r, (get_fragment_dataset_paths env rid s).1
          ≠ .error (.cet (.recordNotFound r))) := by
  constructor
  · intro hnot
    refine ⟨?_, get_all_ok_cachesEq h⟩
    unfold get_fragment_dataset_paths
    split
    next e s0 heq => rw [h] at heq; simp at heq
    next ids' s0 heq =>
      rw [h] at heq
      simp only [Prod.mk.injEq] at heq
      obtain ⟨h1, rfl⟩ := heq
      obtain rfl := Except.ok.inj h1
      rw [if_neg hnot]
  · intro hmem r
    have hne : ids ≠ [] := List.ne_nil_of_mem hmem
    have hmemo := get_all_record_ids_memo h hne
    unfold get_fragment_dataset_paths
    split
    next e s0 heq => rw [h] at heq; simp at heq
    next ids' s0 heq =>
      rw [h] at heq
      simp only [Prod.mk.injEq] at heq
      obtain ⟨h1, rfl⟩ := heq
      obtain rfl := Except.ok.inj h1
      rw [if_pos hmem]
      split
      · dsimp only
        split
        next e hdp =>
          obtain ⟨nm, rfl⟩ := get_dataset_paths_err_shape hdp
          simp
        next paths hdp => simp
      · split
        next e s2 hfs =>
          obtain rfl := get_fragment_source_ids_err_shape hmemo hmem hfs
          simp
        next sids s2 hfs => simp

/-- Witness for C5: requesting the fragment dataset paths of record (99,0)
on `envW`, whose enumerated records are {(1,0)}, fails with RecordNotFound
(99,0) while every per-record cache stays as it was. -/
theorem C5_witness :
    get_fragment_dataset_paths envW (99, 0) initState
        = (.error (.cet (.recordNotFound (99, 0))), wS0) ∧
    perRecordCachesEq wS0 initState :=
  (C5_record_not_found envW (99, 0) initState wS0 [(1, 0)] rfl).1 (by decide)

/-- Claim C6: get_frag_ptr fails with IncompatibleVersion exactly when the
filelayout version is strictly below 2, and it does so before the record-id
check (the rejection holds for every record id and leaves the state
untouched); on a version-3 file with an enumerated record id and a source id
whose cached path resolves to a dataset, the call succeeds. -/
theorem C6_version_gate (env : FileEnv) (rid : record_id_t) (sid : SourceID)
    (s : FileState) :
    (env.version < 2 →
      get_frag_ptr env rid sid s
          = (.error (.cet (.incompatibleVersion env.version)), s)) ∧
    (2 ≤ env.version →
      ∀ v, (get_frag_ptr env rid sid s).1 ≠ .error (.cet (.incompatibleVersion v))) ∧
    (∀ ids s1 s2 bytes, 2 ≤ env.version →
      get_all_record_ids env s = (.ok ids, s1) → rid ∈ ids →
      add_record_level_info_to_caches_if_needed env rid s1 = (.ok (), s2) →
      get_dataset_raw_data env
          (lookupD sid (lookupD rid s2.source_id_path_cache []) "") = .ok bytes →
      get_frag_ptr env rid sid s = (.ok ⟨bytes⟩, s2)) := by
  refine ⟨?_, ?_, ?_⟩
  · intro hv
    unfold get_frag_ptr
    rw [if_pos hv]
  · intro hv v
    unfold get_frag_ptr
    rw [if_neg (by omega : ¬ env.version < 2)]
    split
    next e s0 heq =>
      rcases get_all_err_shape heq with rfl | rfl <;> simp
    next ids s0 heq =>
      split
      · split
        next e s2 hadd =>
          obtain ⟨rfl, -⟩ := add_err_shape hadd
          simp
        next u s2 hadd =>
          split
          next e hfd =>
            obtain ⟨p, rfl⟩ := get_frag_ptr_from_dataset_err_shape hfd
            simp
          next f hfd => simp
      · simp
  · intro ids s1 s2 bytes hv hga hmem hadd hraw
    have hfd : get_frag_ptr_from_dataset env
        (lookupD sid (lookupD rid s2.source_id_path_cache []) "") = .ok ⟨bytes⟩ := by
      unfold get_frag_ptr_from_dataset
      rw [hraw]
    unfold get_frag_ptr
    rw [if_neg (by omega : ¬ env.version < 2)]
    split
    next e s0 heq => rw [hga] at heq; simp at heq
    next ids' s0 heq =>
      rw [hga] at heq
      simp only [Prod.mk.injEq] at heq
      obtain ⟨h1, rfl⟩ := heq
      obtain rfl := Except.ok.inj h1
      rw [if_pos hmem]
      split
      next e s2' hadd' => rw [hadd] at hadd'; simp at hadd'
      next u s2' hadd' =>
        rw [hadd] at hadd'
        simp only [Prod.mk.injEq] at hadd'
        obtain ⟨-, rfl⟩ := hadd'
        split
        next e hfd' => rw [hfd] at hfd'; simp at hfd'
        next f hfd' =>
          rw [hfd] at hfd'
          obtain rfl := Except.ok.inj hfd'
          rfl

/-- Witness for C6: the same call rejected with IncompatibleVersion on the
version-1 file and succeeding on the version-3 file. -/
theorem C6_witness :
    get_frag_ptr envV1 (1, 0) ⟨1, 1⟩ initState
        = (.error (.cet (.incompatibleVersion 1)), initState) ∧
    get_frag_ptr envW (1, 0) ⟨1, 1⟩ initState = (.ok ⟨[1, 2, 3]⟩, wS1) := by
  constructor
  · exact (C6_version_gate envV1 (1, 0) ⟨1, 1⟩ initState).1 (by decide)
  · exact (C6_version_gate envW (1, 0) ⟨1, 1⟩ initState).2.2 [(1, 0)] wS0 wS1
      [1, 2, 3] (by decide) rfl (by decide) rfl rfl

theorem construct_eq_check {a : RawFileAttrs} {L : HDF5FileLayout}
    (hL : read_file_layout a = .ok L) :
    constructHDF5RawDataFile a =
      match check_file_layout a L with
      | .error e => .error e
      | .ok _ => .ok ⟨a.recorded_size.getD 0, L,
          (a.record_type).getD L.params.record_name_pref⟩ := by
  unfold constructHDF5RawDataFile
  rw [hL]

theorem check_file_layout_cases (a : RawFileAttrs) (L : HDF5FileLayout) :
    (L.version < 2 ∧ check_file_layout a L = .ok ()) ∨
    (2 ≤ L.version ∧ a.record_type = none ∧
      check_file_layout a L = .error (.cet (.missingAttribute "record_type"))) ∨
    (2 ≤ L.version ∧ ∃ rt, a.record_type = some rt ∧
      ((rt ≠ L.params.record_name_pref ∧
        check_file_layout a L
          = .error (.cet (.badRecordType rt L.params.record_name_pref))) ∨
       (rt = L.params.record_name_pref ∧ check_file_layout a L = .ok ()))) := by
  by_cases hv : L.version < 2
  · exact Or.inl ⟨hv, by unfold check_file_layout; rw [if_pos hv]⟩
  · right
    cases hrt : a.record_type with
    | none =>
      left
      refine ⟨by omega, rfl, ?_⟩
      unfold check_file_layout
      rw [if_neg hv, hrt]
    | some rt =>
      right
      refine ⟨by omega, rt, rfl, ?_⟩
      by_cases hne : rt = L.params.record_name_pref
      · right
        refine ⟨hne, ?_⟩
        unfold check_file_layout
        rw [if_neg hv, hrt]
        simp [hne]
      · left
        refine ⟨hne, ?_⟩
        unfold check_file_layout
        rw [if_neg hv, hrt]
        simp [hne]

/-- Claim C7, counterexample: on a version-2 file whose record_type
attribute is absent, construction is claimed not to fail on the record-type
consistency check; in the code, check_file_layout re-reads the attribute
unconditionally for version at least 2, so construction fails (with a
missing-attribute error) inside that check. -/
theorem C7_counterexample :
    attrsNoRT.record_type = none ∧
    read_file_layout attrsNoRT = .ok ⟨default, 2⟩ ∧
    check_file_layout attrsNoRT ⟨default, 2⟩
        = .error (.cet (.missingAttribute "record_type")) ∧
    constructHDF5RawDataFile attrsNoRT
        = .error (.cet (.missingAttribute "record_type")) :=
  ⟨rfl, rfl, rfl, rfl⟩

/-- Claim C7 as amended: construction fails with a schema-mismatch error iff
the version is at least 2 and the record-type attribute is present with a
value differing from the layout's record-name tag; for version below 2 the
check is skipped and construction succeeds with the record type defaulted
from the layout tag when absent; for version at least 2 an absent
record-type attribute fails construction with a missing-attribute error
rather than a schema-mismatch error. -/
theorem C7_schema_mismatch_amended (a : RawFileAttrs) (L : HDF5FileLayout)
    (hL : read_file_layout a = .ok L) :
    ((∃ rt, constructHDF5RawDataFile a
        = .error (.cet (.badRecordType rt L.params.record_name_pref))) ↔
      (2 ≤ L.version ∧
        ∃ rt, a.record_type = some rt ∧ rt ≠ L.params.record_name_pref)) ∧
    (L.version < 2 →
      constructHDF5RawDataFile a = .ok ⟨a.recorded_size.getD 0, L,
          (a.record_type).getD L.params.record_name_pref⟩) ∧
    (2 ≤ L.version → a.record_type = none →
      constructHDF5RawDataFile a
        = .error (.cet (.missingAttribute "record_type"))) := by
  have hcon := construct_eq_check hL
  rcases check_file_layout_cases a L with ⟨hv, hchk⟩ | ⟨hv, hrt, hchk⟩ |
      ⟨hv, rt, hrt, hcase⟩
  · have hok : constructHDF5RawDataFile a = .ok ⟨a.recorded_size.getD 0, L,
        (a.record_type).getD L.params.record_name_pref⟩ := by
      rw [hcon, hchk]
    refine ⟨?_, fun _ => hok, fun h2 _ => absurd hv (by omega)⟩
    constructor
    · rintro ⟨rt, hbad⟩
      rw [hok] at hbad
      simp at hbad
    · rintro ⟨hv2, -⟩
      omega
  · have herr : constructHDF5RawDataFile a
        = .error (.cet (.missingAttribute "record_type")) := by
      rw [hcon, hchk]
    refine ⟨?_, fun hlt => absurd hlt (by omega), fun _ _ => herr⟩
    constructor
    · rintro ⟨rt, hbad⟩
      rw [herr] at hbad
      simp at hbad
    · rintro ⟨-, rt, hsome, -⟩
      rw [hrt] at hsome
      simp at hsome
  · rcases hcase with ⟨hne, hchk⟩ | ⟨hpre, hchk⟩
    · have herr : constructHDF5RawDataFile a
          = .error (.cet (.badRecordType rt L.params.record_name_pref)) := by
        rw [hcon, hchk]
      refine ⟨?_, fun hlt => absurd hlt (by omega), fun _ hnone => ?_⟩
      · exact ⟨fun _ => ⟨hv, rt, hrt, hne⟩, fun _ => ⟨rt, herr⟩⟩
      · rw [hrt] at hnone
        simp at hnone
    · have hok : constructHDF5RawDataFile a = .ok ⟨a.recorded_size.getD 0, L,
          (a.record_type).getD L.params.record_name_pref⟩ := by
        rw [hcon, hchk]
      refine ⟨?_, fun hlt => absurd hlt (by omega), fun _ hnone => ?_⟩
      · constructor
        · rintro ⟨rt', hbad⟩
          rw [hok] at hbad
          simp at hbad
        · rintro ⟨-, rt', hsome, hne'⟩
          rw [hrt] at hsome
          obtain rfl := Option.some.inj hsome
          exact absurd hpre hne'
      · rw [hrt] at hnone
        simp at hnone

/-- Witness for C7's amended theorem: a version-2 file declaring record type
TimeSlice against a TriggerRecord layout fails with the schema-mismatch
error. -/
theorem C7_witness :
    ∃ rt, constructHDF5RawDataFile attrsMismatch
        = .error (.cet (.badRecordType rt "TriggerRecord")) :=
  (C7_schema_mismatch_amended attrsMismatch ⟨default, 2⟩ rfl).1.mpr
    ⟨by norm_num, "TimeSlice", rfl, by decide⟩

/-- Claim C8, counterexample: the layout-descriptor read is claimed never to
fail, but a present-yet-unparseable filelayout_params attribute makes the
JSON parser throw an exception that the catch clause (which handles only
cet::exception) does not catch, so read_file_layout propagates the error. -/
theorem C8_counterexample :
    read_file_layout attrsBadJson = .error .jsonException := rfl

/-- Claim C8 as amended: read_file_layout tolerates absent attributes — a
missing filelayout_params yields schema version 0 with default parameters,
and parsed parameters with a missing filelayout_version yield version 0 with
the parsed parameters — but an unparseable filelayout_params attribute
propagates the JSON parser's exception instead of completing. -/
theorem C8_layout_tolerance_amended (a : RawFileAttrs) :
    (a.filelayout_params = none → read_file_layout a = .ok ⟨default, 0⟩) ∧
    (∀ p, a.filelayout_params = some (ParseOutcome.parsed p) →
      read_file_layout a = .ok ⟨p, (a.filelayout_version).getD 0⟩) ∧
    (a.filelayout_params = some ParseOutcome.malformed →
      read_file_layout a = .error .jsonException) := by
  refine ⟨?_, ?_, ?_⟩
  · intro h
    unfold read_file_layout
    rw [h]
  · intro p h
    unfold read_file_layout
    rw [h]
    cases hv : a.filelayout_version with
    | none => rfl
    | some v => rfl
  · intro h
    unfold read_file_layout
    rw [h]

/-- Witness for C8's amended theorem: a bare old file with no layout
attributes yields the version-0 default descriptor. -/
theorem C8_witness : read_file_layout attrsBare = .ok ⟨default, 0⟩ :=
  (C8_layout_tolerance_amended attrsBare).1 rfl

end hdf5libs
end dunedaq
